import Mathlib

/-!
# libsalty: the NIF boundary layer `src/salty_nif.c`

A shallow embedding of the Erlang NIF shim around libsodium.  Every exported
function of `salty_nif.c` is a chain of the macros `SALTY_FUNC`,
`SALTY_INPUT_BIN`, `SALTY_OUTPUT_BIN`, `SALTY_CALL*` and `END_OK*`; the macros
are embedded one by one as actions of a small trace-and-early-return monad and
the functions are written with them, statement for statement.

What is outside the repository is kept outside the embedding:

* libsodium (`sodium.h`): its size constants and primitives are the fields of
  the structure `Sodium`; theorems quantify over it.
* the Erlang runtime (`erl_nif.h`): terms are a small inductive type,
  `enif_inspect_binary` and `enif_inspect_iolist_as_binary` follow their
  documented behaviour, and the fallible `enif_alloc_binary` is the oracle
  `Erts.enif_alloc_binary`.
-/

namespace Salty

/-! ## Data model -/

abbrev Byte := Fin 256

abbrev Bytes := List Byte

/-- Erlang terms as far as the NIF can tell them apart. -/
inductive Term where
  | atom (name : String)
  | int (n : Int)
  | binary (data : Bytes)
  | nil
  | cons (hd tl : Term)
  | tuple2 (a b : Term)
  deriving DecidableEq

/-- What a NIF hands back: the bad-argument exception marker produced by
`enif_make_badarg`, or an ordinary term. -/
inductive Ret where
  | badarg
  | term (t : Term)
  deriving DecidableEq

/-- Observable effects of one NIF call, in program order. -/
inductive Event where
  /-- A call `enif_alloc_binary(len, _)` that succeeded. -/
  | alloc (len : Nat)
  /-- A call `enif_alloc_binary(len, _)` that failed. -/
  | alloc_failed (len : Nat)
  /-- A wrapped libsodium primitive was invoked and returned `rc`. -/
  | call (rc : Int)
  /-- A call of `enif_release_binary` on the output buffer. -/
  | release
  /-- A call of `enif_make_binary`: the output buffer now belongs to the returned term. -/
  | make_binary
  deriving DecidableEq

/-- Result of one NIF call: the returned value and the effects performed. -/
structure Outcome where
  ret : Ret
  trace : List Event
  deriving DecidableEq

/-! ## The part of `erl_nif.h` the shim uses -/

def enif_make_atom (name : String) : Term := Term.atom name

def enif_make_tuple2 (a b : Term) : Term := Term.tuple2 a b

def enif_make_int64 (n : Int) : Term := Term.int n

def enif_make_binary (data : Bytes) : Term := Term.binary data

/-- The call `enif_inspect_binary`: it succeeds exactly on binaries. -/
def enif_inspect_binary : Term → Option Bytes
  | Term.binary d => some d
  | _ => none

/-- The call `enif_inspect_iolist_as_binary`: it flattens an iolist, a binary or a list
(possibly with a binary tail) of bytes, binaries and iolists. -/
def enif_inspect_iolist_as_binary : Term → Option Bytes
  | Term.binary d => some d
  | Term.nil => some []
  | Term.cons (Term.int n) tl =>
    if 0 ≤ n ∧ n < 256 then
      match enif_inspect_iolist_as_binary tl with
      | some r => some (Fin.ofNat n.toNat :: r)
      | none => none
    else none
  | Term.cons hd tl =>
    match enif_inspect_iolist_as_binary hd, enif_inspect_iolist_as_binary tl with
    | some a, some b => some (a ++ b)
    | _, _ => none
  | _ => none

/-- The runtime services that can fail or are unspecified: whether an
allocation of a given size succeeds, and what a fresh buffer holds. -/
structure Erts where
  enif_alloc_binary : Nat → Bool
  uninit : Nat → Byte

/-- Contents of a freshly allocated binary of `len` bytes. -/
def Erts.fresh (R : Erts) (len : Nat) : Bytes := (List.range len).map R.uninit

/-- A primitive writing `out` at the start of the buffer `buf`; the buffer
keeps its size. -/
def writeBuf (buf out : Bytes) : Bytes := (out ++ buf.drop out.length).take buf.length

/-! ## The part of `sodium.h` the shim uses -/

inductive Aead where
  | aes256gcm
  | chacha20poly1305
  | xchacha20poly1305_ietf
  deriving DecidableEq

inductive Hmac where
  | hmacsha256
  | hmacsha512
  | hmacsha512256
  deriving DecidableEq

inductive Core where
  | hchacha20
  | hsalsa20
  deriving DecidableEq

/-- One `crypto_aead_<family>_*` group.  A primitive returns its integer code
and the bytes it wrote to its output pointer; fixed-size pointer arguments are
read for exactly their declared number of bytes. -/
structure AeadPrim where
  KEYBYTES : Nat
  NSECBYTES : Nat
  NPUBBYTES : Nat
  ABYTES : Nat
  encrypt : (m ad npub k : Bytes) → Int × Bytes
  decrypt_detached : (c mac ad npub k : Bytes) → Int × Bytes

/-- One `crypto_auth_<family>*` group. -/
structure AuthPrim where
  BYTES : Nat
  KEYBYTES : Nat
  auth : (msg k : Bytes) → Int × Bytes
  verify : (h msg k : Bytes) → Int

/-- One `crypto_core_<family>*` group. -/
structure CorePrim where
  INPUTBYTES : Nat
  KEYBYTES : Nat
  CONSTBYTES : Nat
  OUTPUTBYTES : Nat
  core : (inp k c : Bytes) → Int × Bytes

/-- The wrapped library.  `σ` is the library's global state, touched only by
`sodium_init`. -/
structure Sodium (σ : Type) where
  sodium_init : σ → Int × σ
  sodium_memcmp : (b1 b2 : Bytes) → (len : Nat) → Int
  crypto_aead_aes256gcm_is_available : Int
  aead : Aead → AeadPrim
  auth : Hmac → AuthPrim
  core : Core → CorePrim

/-! ## Static values and `salty_onload` -/

structure Statics where
  atom_ok : Term
  atom_error : Term
  atom_error_no_match : Term
  atom_error_not_available : Term
  atom_error_forged : Term
  atom_error_unknown : Term
  tuple_error_unknown : Term

/-- Function `salty_onload`: it caches the atoms and the generic error tuple, and returns 0. -/
def salty_onload : Int × Statics :=
  (0,
   { atom_ok := enif_make_atom "ok"
     atom_error := enif_make_atom "error"
     atom_error_no_match := enif_make_atom "no_match"
     atom_error_not_available := enif_make_atom "not_available"
     atom_error_forged := enif_make_atom "forged"
     atom_error_unknown := enif_make_atom "salty_error_unknown"
     tuple_error_unknown :=
       enif_make_tuple2 (enif_make_atom "error") (enif_make_atom "salty_error_unknown") })

def atom_ok : Term := salty_onload.2.atom_ok

def atom_error : Term := salty_onload.2.atom_error

def atom_error_no_match : Term := salty_onload.2.atom_error_no_match

def atom_error_not_available : Term := salty_onload.2.atom_error_not_available

def atom_error_forged : Term := salty_onload.2.atom_error_forged

def atom_error_unknown : Term := salty_onload.2.atom_error_unknown

def tuple_error_unknown : Term := salty_onload.2.tuple_error_unknown

/-! ## The macros -/

def SALTY_NOERR : Int := 0

def SALTY_BADARG : Ret := Ret.badarg

def SALTY_BADALLOC : Ret := SALTY_BADARG

def SALTY_ERROR : Ret := Ret.term tuple_error_unknown

def SALTY_ERROR_PAIR (err : Term) : Ret := Ret.term (enif_make_tuple2 atom_error err)

def SALTY_OK : Ret := Ret.term atom_ok

def SALTY_OK_PAIR (a : Term) : Ret := Ret.term (enif_make_tuple2 atom_ok a)

def SALTY_BIN_NO_SIZE : Nat := 0

/-- A NIF body in progress: the effects so far, and either the value of an
executed `return` (`Except.error`) or the value the next statement sees. -/
structure NifM (α : Type) where
  trace : List Event
  res : Except Ret α

def NifM.bind {α β : Type} (m : NifM α) (f : α → NifM β) : NifM β :=
  match m.res with
  | Except.error r => ⟨m.trace, Except.error r⟩
  | Except.ok a => ⟨m.trace ++ (f a).trace, (f a).res⟩

instance : Monad NifM where
  pure a := ⟨[], Except.ok a⟩
  bind := NifM.bind

/-- The value a finished body returns, by `return` or by running off `END_OK*`. -/
def NifM.value (m : NifM Ret) : Ret :=
  match m.res with
  | Except.error r => r
  | Except.ok r => r

/-- The C statement `return (r);`. -/
def ret {α : Type} (r : Ret) : NifM α := ⟨[], Except.error r⟩

/-- Record one effect. -/
def emit (e : Event) : NifM Unit := ⟨[e], Except.ok ()⟩

/-- Macro `SALTY_INPUT_BIN(index, dst, len)`.  The index is within `argv`
behind the arity guard of `SALTY_FUNC`. -/
def SALTY_INPUT_BIN (argv : List Term) (index len : Nat) : NifM Bytes :=
  match argv[index]? with
  | none => ret SALTY_BADARG
  | some t => do
    let dst ←
      match enif_inspect_binary t with
      | some d => pure d
      | none =>
        match enif_inspect_iolist_as_binary t with
        | some d => pure d
        | none => ret SALTY_BADARG
    if dst.length < len then
      ret SALTY_BADARG
    else
      pure dst

/-- Macro `SALTY_OUTPUT_BIN(dst, len)`. -/
def SALTY_OUTPUT_BIN (R : Erts) (len : Nat) : NifM Bytes :=
  if R.enif_alloc_binary len then do
    emit (Event.alloc len)
    pure (R.fresh len)
  else do
    emit (Event.alloc_failed len)
    ret SALTY_BADALLOC

/-- Macro `SALTY_FUNC(name, args) DO ... END`: the arity guard, then the body. -/
def SALTY_FUNC (argv : List Term) (args : Nat) (body : NifM Ret) : Outcome :=
  if argv.length ≠ args then
    ⟨SALTY_BADARG, []⟩
  else
    ⟨body.value, body.trace⟩

/-- Macro `END_OK`. -/
def END_OK : NifM Ret := ret SALTY_OK

/-- Macro `END_OK_WITH(out)`. -/
def END_OK_WITH (out : Bytes) : NifM Ret := do
  emit Event.make_binary
  ret (SALTY_OK_PAIR (enif_make_binary out))

/-- Macro `SALTY_CONST_INT64(name)`: no arity guard, the constant as an integer. -/
def SALTY_CONST_INT64 (c : Nat) (_argv : List Term) : Outcome :=
  ⟨Ret.term (enif_make_int64 c), []⟩

/-- Macro `SALTY_CALL_SIMPLE(call)`. -/
def SALTY_CALL_SIMPLE (call : Int) : NifM Unit := do
  emit (Event.call call)
  if call ≠ SALTY_NOERR then
    ret SALTY_ERROR
  else
    pure ()

/-- Macro `SALTY_CALL_SIMPLE_WITHERR(call, error)`. -/
def SALTY_CALL_SIMPLE_WITHERR (call : Int) (error : Term) : NifM Unit := do
  emit (Event.call call)
  if call ≠ SALTY_NOERR then
    ret (SALTY_ERROR_PAIR error)
  else
    pure ()

/-- Macro `SALTY_CALL(call, output)`; the value is the output buffer after the call. -/
def SALTY_CALL (call : Int × Bytes) (output : Bytes) : NifM Bytes := do
  emit (Event.call call.1)
  if call.1 ≠ SALTY_NOERR then do
    emit Event.release
    ret SALTY_ERROR
  else
    pure (writeBuf output call.2)

/-- Macro `SALTY_CALL_WITHERR(call, error, output)`. -/
def SALTY_CALL_WITHERR (call : Int × Bytes) (error : Term) (output : Bytes) : NifM Bytes := do
  emit (Event.call call.1)
  if call.1 ≠ SALTY_NOERR then do
    emit Event.release
    ret (SALTY_ERROR_PAIR error)
  else
    pure (writeBuf output call.2)

/-! ## The exported functions -/

section Functions

variable {σ : Type}

/-- Function `SALTY_FUNC(init, 0)`: the only function that touches the library state. -/
def salty_init (S : Sodium σ) (argv : List Term) (s : σ) : Outcome × σ :=
  (SALTY_FUNC argv 0 (do
      SALTY_CALL_SIMPLE (S.sodium_init s).1
      END_OK),
   if argv.length ≠ 0 then s else (S.sodium_init s).2)

/-- Function `SALTY_FUNC(memcmp, 2)`. -/
def salty_memcmp (S : Sodium σ) (argv : List Term) : Outcome :=
  SALTY_FUNC argv 2 (do
    let a ← SALTY_INPUT_BIN argv 0 SALTY_BIN_NO_SIZE
    let b ← SALTY_INPUT_BIN argv 1 SALTY_BIN_NO_SIZE
    if a.length ≠ b.length then
      ret SALTY_ERROR
    else do
      SALTY_CALL_SIMPLE (S.sodium_memcmp a b a.length)
      END_OK)

/-- Function `SALTY_CONST_INT64(aead_<family>_KEYBYTES)`. -/
def salty_aead_KEYBYTES (S : Sodium σ) (f : Aead) (argv : List Term) : Outcome :=
  SALTY_CONST_INT64 (S.aead f).KEYBYTES argv

/-- Function `SALTY_CONST_INT64(aead_<family>_NSECBYTES)`. -/
def salty_aead_NSECBYTES (S : Sodium σ) (f : Aead) (argv : List Term) : Outcome :=
  SALTY_CONST_INT64 (S.aead f).NSECBYTES argv

/-- Function `SALTY_CONST_INT64(aead_<family>_NPUBBYTES)`. -/
def salty_aead_NPUBBYTES (S : Sodium σ) (f : Aead) (argv : List Term) : Outcome :=
  SALTY_CONST_INT64 (S.aead f).NPUBBYTES argv

/-- Function `SALTY_CONST_INT64(aead_<family>_ABYTES)`. -/
def salty_aead_ABYTES (S : Sodium σ) (f : Aead) (argv : List Term) : Outcome :=
  SALTY_CONST_INT64 (S.aead f).ABYTES argv

/-- Function `SALTY_FUNC(aead_aes256gcm_is_available, 0)`. -/
def salty_aead_aes256gcm_is_available (S : Sodium σ) (argv : List Term) : Outcome :=
  SALTY_FUNC argv 0 (do
    emit (Event.call S.crypto_aead_aes256gcm_is_available)
    if S.crypto_aead_aes256gcm_is_available = 0 then
      ret (SALTY_ERROR_PAIR atom_error_not_available)
    else
      END_OK)

/-- Function `SALTY_FUNC(aead_<family>_encrypt, 5)`, the same text for the
three families.  Argument 2 (`nsec`) is not read: its `SALTY_INPUT_BIN` line is
commented out in all three.  The size `ABYTES + plain.size` is a `size_t` sum
that cannot wrap, a binary being far smaller than `SIZE_MAX - ABYTES`. -/
def salty_aead_encrypt (S : Sodium σ) (R : Erts) (f : Aead) (argv : List Term) : Outcome :=
  SALTY_FUNC argv 5 (do
    let plain ← SALTY_INPUT_BIN argv 0 SALTY_BIN_NO_SIZE
    let ad ← SALTY_INPUT_BIN argv 1 SALTY_BIN_NO_SIZE
    let npub ← SALTY_INPUT_BIN argv 3 (S.aead f).NPUBBYTES
    let key ← SALTY_INPUT_BIN argv 4 (S.aead f).KEYBYTES
    let cipher ← SALTY_OUTPUT_BIN R ((S.aead f).ABYTES + plain.length)
    let cipher ← SALTY_CALL
      ((S.aead f).encrypt plain ad (npub.take (S.aead f).NPUBBYTES)
        (key.take (S.aead f).KEYBYTES)) cipher
    END_OK_WITH cipher)

/-- Function `SALTY_FUNC(aead_<family>_decrypt_detached, 6)`, the same text for the
three families.  Argument 0 (`nsec`) is not read. -/
def salty_aead_decrypt_detached (S : Sodium σ) (R : Erts) (f : Aead) (argv : List Term) :
    Outcome :=
  SALTY_FUNC argv 6 (do
    let cipher ← SALTY_INPUT_BIN argv 1 SALTY_BIN_NO_SIZE
    let mac ← SALTY_INPUT_BIN argv 2 (S.aead f).ABYTES
    let ad ← SALTY_INPUT_BIN argv 3 SALTY_BIN_NO_SIZE
    let npub ← SALTY_INPUT_BIN argv 4 (S.aead f).NPUBBYTES
    let key ← SALTY_INPUT_BIN argv 5 (S.aead f).KEYBYTES
    let plain ← SALTY_OUTPUT_BIN R cipher.length
    let plain ← SALTY_CALL_WITHERR
      ((S.aead f).decrypt_detached cipher (mac.take (S.aead f).ABYTES) ad
        (npub.take (S.aead f).NPUBBYTES) (key.take (S.aead f).KEYBYTES))
      atom_error_forged plain
    END_OK_WITH plain)

/-- Function `SALTY_CONST_INT64(auth_<family>_BYTES)`. -/
def salty_auth_BYTES (S : Sodium σ) (h : Hmac) (argv : List Term) : Outcome :=
  SALTY_CONST_INT64 (S.auth h).BYTES argv

/-- Function `SALTY_CONST_INT64(auth_<family>_KEYBYTES)`. -/
def salty_auth_KEYBYTES (S : Sodium σ) (h : Hmac) (argv : List Term) : Outcome :=
  SALTY_CONST_INT64 (S.auth h).KEYBYTES argv

/-- Function `SALTY_FUNC(auth_<family>, 2)`, the same text for the three families. -/
def salty_auth (S : Sodium σ) (R : Erts) (h : Hmac) (argv : List Term) : Outcome :=
  SALTY_FUNC argv 2 (do
    let msg ← SALTY_INPUT_BIN argv 0 SALTY_BIN_NO_SIZE
    let key ← SALTY_INPUT_BIN argv 1 (S.auth h).KEYBYTES
    let mac ← SALTY_OUTPUT_BIN R (S.auth h).BYTES
    let mac ← SALTY_CALL ((S.auth h).auth msg (key.take (S.auth h).KEYBYTES)) mac
    END_OK_WITH mac)

/-- Function `SALTY_FUNC(auth_<family>_verify, 3)`, the same text for the three families. -/
def salty_auth_verify (S : Sodium σ) (h : Hmac) (argv : List Term) : Outcome :=
  SALTY_FUNC argv 3 (do
    let mac ← SALTY_INPUT_BIN argv 0 (S.auth h).BYTES
    let msg ← SALTY_INPUT_BIN argv 1 SALTY_BIN_NO_SIZE
    let key ← SALTY_INPUT_BIN argv 2 (S.auth h).KEYBYTES
    SALTY_CALL_SIMPLE_WITHERR
      ((S.auth h).verify (mac.take (S.auth h).BYTES) msg (key.take (S.auth h).KEYBYTES))
      atom_error_no_match
    END_OK)

/-- Function `SALTY_FUNC(core_hchacha20, 3)` and `SALTY_FUNC(core_hsalsa20, 3)`. -/
def salty_core (S : Sodium σ) (R : Erts) (c : Core) (argv : List Term) : Outcome :=
  SALTY_FUNC argv 3 (do
    let inp ← SALTY_INPUT_BIN argv 0 (S.core c).INPUTBYTES
    let key ← SALTY_INPUT_BIN argv 1 (S.core c).KEYBYTES
    let con ← SALTY_INPUT_BIN argv 2 (S.core c).CONSTBYTES
    let out ← SALTY_OUTPUT_BIN R (S.core c).OUTPUTBYTES
    let out ← SALTY_CALL
      ((S.core c).core (inp.take (S.core c).INPUTBYTES) (key.take (S.core c).KEYBYTES)
        (con.take (S.core c).CONSTBYTES)) out
    END_OK_WITH out)

/-! The functions under their C names. -/

def salty_aead_aes256gcm_encrypt (S : Sodium σ) (R : Erts) :=
  salty_aead_encrypt S R Aead.aes256gcm

def salty_aead_aes256gcm_decrypt_detached (S : Sodium σ) (R : Erts) :=
  salty_aead_decrypt_detached S R Aead.aes256gcm

def salty_aead_chacha20poly1305_encrypt (S : Sodium σ) (R : Erts) :=
  salty_aead_encrypt S R Aead.chacha20poly1305

def salty_aead_chacha20poly1305_decrypt_detached (S : Sodium σ) (R : Erts) :=
  salty_aead_decrypt_detached S R Aead.chacha20poly1305

def salty_aead_xchacha20poly1305_ietf_encrypt (S : Sodium σ) (R : Erts) :=
  salty_aead_encrypt S R Aead.xchacha20poly1305_ietf

def salty_aead_xchacha20poly1305_ietf_decrypt_detached (S : Sodium σ) (R : Erts) :=
  salty_aead_decrypt_detached S R Aead.xchacha20poly1305_ietf

def salty_auth_hmacsha256 (S : Sodium σ) (R : Erts) := salty_auth S R Hmac.hmacsha256

def salty_auth_hmacsha256_verify (S : Sodium σ) := salty_auth_verify S Hmac.hmacsha256

def salty_auth_hmacsha512 (S : Sodium σ) (R : Erts) := salty_auth S R Hmac.hmacsha512

def salty_auth_hmacsha512_verify (S : Sodium σ) := salty_auth_verify S Hmac.hmacsha512

def salty_auth_hmacsha512256 (S : Sodium σ) (R : Erts) := salty_auth S R Hmac.hmacsha512256

def salty_auth_hmacsha512256_verify (S : Sodium σ) := salty_auth_verify S Hmac.hmacsha512256

def salty_core_hchacha20 (S : Sodium σ) (R : Erts) := salty_core S R Core.hchacha20

def salty_core_hsalsa20 (S : Sodium σ) (R : Erts) := salty_core S R Core.hsalsa20

/-! ## The export table -/

/-- The entries of `salty_exports`, by family. -/
inductive Op where
  | init
  | memcmp
  | aead_KEYBYTES (f : Aead)
  | aead_NSECBYTES (f : Aead)
  | aead_NPUBBYTES (f : Aead)
  | aead_ABYTES (f : Aead)
  | aead_aes256gcm_is_available
  | aead_encrypt (f : Aead)
  | aead_decrypt_detached (f : Aead)
  | auth_BYTES (h : Hmac)
  | auth_KEYBYTES (h : Hmac)
  | auth (h : Hmac)
  | auth_verify (h : Hmac)
  | core (c : Core)
  deriving DecidableEq

/-- The arity column of `salty_exports`. -/
def Op.arity : Op → Nat
  | Op.init => 0
  | Op.memcmp => 2
  | Op.aead_KEYBYTES _ => 0
  | Op.aead_NSECBYTES _ => 0
  | Op.aead_NPUBBYTES _ => 0
  | Op.aead_ABYTES _ => 0
  | Op.aead_aes256gcm_is_available => 0
  | Op.aead_encrypt _ => 5
  | Op.aead_decrypt_detached _ => 6
  | Op.auth_BYTES _ => 0
  | Op.auth_KEYBYTES _ => 0
  | Op.auth _ => 2
  | Op.auth_verify _ => 3
  | Op.core _ => 3

/-- The function column of `salty_exports`: calling an exported operation in
library state `s`. -/
def run (S : Sodium σ) (R : Erts) (s : σ) : Op → List Term → Outcome
  | Op.init, argv => (salty_init S argv s).1
  | Op.memcmp, argv => salty_memcmp S argv
  | Op.aead_KEYBYTES f, argv => salty_aead_KEYBYTES S f argv
  | Op.aead_NSECBYTES f, argv => salty_aead_NSECBYTES S f argv
  | Op.aead_NPUBBYTES f, argv => salty_aead_NPUBBYTES S f argv
  | Op.aead_ABYTES f, argv => salty_aead_ABYTES S f argv
  | Op.aead_aes256gcm_is_available, argv => salty_aead_aes256gcm_is_available S argv
  | Op.aead_encrypt f, argv => salty_aead_encrypt S R f argv
  | Op.aead_decrypt_detached f, argv => salty_aead_decrypt_detached S R f argv
  | Op.auth_BYTES h, argv => salty_auth_BYTES S h argv
  | Op.auth_KEYBYTES h, argv => salty_auth_KEYBYTES S h argv
  | Op.auth h, argv => salty_auth S R h argv
  | Op.auth_verify h, argv => salty_auth_verify S h argv
  | Op.core c, argv => salty_core S R c argv



/-- The `salty_exports` array: name, arity, function. -/
def salty_exports : List (String × Nat × Op) :=
  [ ("init", 0, Op.init),
    ("memcmp", 2, Op.memcmp),
    ("aead_aes256gcm_KEYBYTES", 0, Op.aead_KEYBYTES Aead.aes256gcm),
    ("aead_aes256gcm_NSECBYTES", 0, Op.aead_NSECBYTES Aead.aes256gcm),
    ("aead_aes256gcm_NPUBBYTES", 0, Op.aead_NPUBBYTES Aead.aes256gcm),
    ("aead_aes256gcm_ABYTES", 0, Op.aead_ABYTES Aead.aes256gcm),
    ("aead_aes256gcm_is_available", 0, Op.aead_aes256gcm_is_available),
    ("aead_aes256gcm_encrypt", 5, Op.aead_encrypt Aead.aes256gcm),
    ("aead_aes256gcm_decrypt_detached", 6, Op.aead_decrypt_detached Aead.aes256gcm),
    ("aead_chacha20poly1305_KEYBYTES", 0, Op.aead_KEYBYTES Aead.chacha20poly1305),
    ("aead_chacha20poly1305_NSECBYTES", 0, Op.aead_NSECBYTES Aead.chacha20poly1305),
    ("aead_chacha20poly1305_NPUBBYTES", 0, Op.aead_NPUBBYTES Aead.chacha20poly1305),
    ("aead_chacha20poly1305_ABYTES", 0, Op.aead_ABYTES Aead.chacha20poly1305),
    ("aead_chacha20poly1305_encrypt", 5, Op.aead_encrypt Aead.chacha20poly1305),
    ("aead_chacha20poly1305_decrypt_detached", 6,
      Op.aead_decrypt_detached Aead.chacha20poly1305),
    ("aead_xchacha20poly1305_ietf_KEYBYTES", 0, Op.aead_KEYBYTES Aead.xchacha20poly1305_ietf),
    ("aead_xchacha20poly1305_ietf_NSECBYTES", 0, Op.aead_NSECBYTES Aead.xchacha20poly1305_ietf),
    ("aead_xchacha20poly1305_ietf_NPUBBYTES", 0, Op.aead_NPUBBYTES Aead.xchacha20poly1305_ietf),
    ("aead_xchacha20poly1305_ietf_ABYTES", 0, Op.aead_ABYTES Aead.xchacha20poly1305_ietf),
    ("aead_xchacha20poly1305_ietf_encrypt", 5, Op.aead_encrypt Aead.xchacha20poly1305_ietf),
    ("aead_xchacha20poly1305_ietf_decrypt_detached", 6,
      Op.aead_decrypt_detached Aead.xchacha20poly1305_ietf),
    ("auth_hmacsha256_BYTES", 0, Op.auth_BYTES Hmac.hmacsha256),
    ("auth_hmacsha256_KEYBYTES", 0, Op.auth_KEYBYTES Hmac.hmacsha256),
    ("auth_hmacsha256", 2, Op.auth Hmac.hmacsha256),
    ("auth_hmacsha256_verify", 3, Op.auth_verify Hmac.hmacsha256),
    ("auth_hmacsha512_BYTES", 0, Op.auth_BYTES Hmac.hmacsha512),
    ("auth_hmacsha512_KEYBYTES", 0, Op.auth_KEYBYTES Hmac.hmacsha512),
    ("auth_hmacsha512", 2, Op.auth Hmac.hmacsha512),
    ("auth_hmacsha512_verify", 3, Op.auth_verify Hmac.hmacsha512),
    ("auth_hmacsha512256_BYTES", 0, Op.auth_BYTES Hmac.hmacsha512256),
    ("auth_hmacsha512256_KEYBYTES", 0, Op.auth_KEYBYTES Hmac.hmacsha512256),
    ("auth_hmacsha512256", 2, Op.auth Hmac.hmacsha512256),
    ("auth_hmacsha512256_verify", 3, Op.auth_verify Hmac.hmacsha512256),
    ("core_hchacha20", 3, Op.core Core.hchacha20),
    ("core_hsalsa20", 3, Op.core Core.hsalsa20) ]

/-! ## The argument lists, read off the `SALTY_INPUT_BIN` lines -/

/-- What an argument is for. -/
inductive Role where
  | buffer
  | plaintext
  | ciphertext
  | message
  | assoc_data
  | key
  | nonce
  | tag
  | core_input
  | core_const
  deriving DecidableEq

/-- The parameters with a fixed structural size. -/
def Role.exact : Role → Bool
  | Role.key => true
  | Role.nonce => true
  | Role.tag => true
  | Role.core_input => true
  | Role.core_const => true
  | _ => false

/-- One `SALTY_INPUT_BIN(index, _, len)` line. -/
structure Param where
  index : Nat
  role : Role
  len : Nat
  deriving DecidableEq

/-- The `SALTY_INPUT_BIN` lines of each exported function, in source order. -/
def params (S : Sodium σ) : Op → List Param
  | Op.memcmp =>
    [⟨0, Role.buffer, SALTY_BIN_NO_SIZE⟩, ⟨1, Role.buffer, SALTY_BIN_NO_SIZE⟩]
  | Op.aead_encrypt f =>
    [⟨0, Role.plaintext, SALTY_BIN_NO_SIZE⟩, ⟨1, Role.assoc_data, SALTY_BIN_NO_SIZE⟩,
     ⟨3, Role.nonce, (S.aead f).NPUBBYTES⟩, ⟨4, Role.key, (S.aead f).KEYBYTES⟩]
  | Op.aead_decrypt_detached f =>
    [⟨1, Role.ciphertext, SALTY_BIN_NO_SIZE⟩, ⟨2, Role.tag, (S.aead f).ABYTES⟩,
     ⟨3, Role.assoc_data, SALTY_BIN_NO_SIZE⟩, ⟨4, Role.nonce, (S.aead f).NPUBBYTES⟩,
     ⟨5, Role.key, (S.aead f).KEYBYTES⟩]
  | Op.auth h =>
    [⟨0, Role.message, SALTY_BIN_NO_SIZE⟩, ⟨1, Role.key, (S.auth h).KEYBYTES⟩]
  | Op.auth_verify h =>
    [⟨0, Role.tag, (S.auth h).BYTES⟩, ⟨1, Role.message, SALTY_BIN_NO_SIZE⟩,
     ⟨2, Role.key, (S.auth h).KEYBYTES⟩]
  | Op.core c =>
    [⟨0, Role.core_input, (S.core c).INPUTBYTES⟩, ⟨1, Role.key, (S.core c).KEYBYTES⟩,
     ⟨2, Role.core_const, (S.core c).CONSTBYTES⟩]
  | _ => []

/-- The position of the secret nonce `nsec`, whose `SALTY_INPUT_BIN` line is
commented out. -/
def nsec_index : Op → Option Nat
  | Op.aead_encrypt _ => some 2
  | Op.aead_decrypt_detached _ => some 0
  | _ => none

/-- The functions with a `SALTY_OUTPUT_BIN` line. -/
def Op.allocates : Op → Bool
  | Op.aead_encrypt _ => true
  | Op.aead_decrypt_detached _ => true
  | Op.auth _ => true
  | Op.core _ => true
  | _ => false

/-- The bytes `SALTY_INPUT_BIN` finds in a term: `enif_inspect_binary`, and if
that fails `enif_inspect_iolist_as_binary`. -/
def asBytes (t : Term) : Option Bytes :=
  match enif_inspect_binary t with
  | some d => some d
  | none => enif_inspect_iolist_as_binary t

/-- The outcome of `SALTY_INPUT_BIN(index, dst, len)` as an option: the bytes
bound to `dst`, or `none` for the bad-argument return. -/
def input_bin (argv : List Term) (index len : Nat) : Option Bytes :=
  match argv[index]? with
  | none => none
  | some t =>
    match asBytes t with
    | none => none
    | some d => if d.length < len then none else some d

/-- Whether a returned value holds an output buffer. -/
def Term.hasBinary : Term → Bool
  | Term.binary _ => true
  | Term.cons hd tl => hd.hasBinary || tl.hasBinary
  | Term.tuple2 a b => a.hasBinary || b.hasBinary
  | _ => false

def Ret.carriesBuffer : Ret → Bool
  | Ret.badarg => false
  | Ret.term t => t.hasBinary

/-- The success values: `ok`, or `{ok, Buffer}`. -/
def Ret.isSuccess (r : Ret) : Prop :=
  r = SALTY_OK ∨ ∃ out, r = SALTY_OK_PAIR (enif_make_binary out)

/-- The error value each operation maps a nonzero primitive code to. -/
def failureOf : Op → Ret
  | Op.aead_decrypt_detached _ => SALTY_ERROR_PAIR atom_error_forged
  | Op.auth_verify _ => SALTY_ERROR_PAIR atom_error_no_match
  | _ => SALTY_ERROR

/-! ## Contracts assumed of the wrapped primitives -/

/-- The primitive `sodium_memcmp` returns 0 exactly when the two regions agree. -/
def MemcmpContract (S : Sodium σ) : Prop :=
  ∀ a b : Bytes, a.length = b.length → (S.sodium_memcmp a b a.length = 0 ↔ a = b)

/-- The detached decrypt inverts the combined encrypt: a successful encrypt
writes the ciphertext (as long as the message) followed by an `ABYTES` tag, and
decrypting those two parts under the same data, nonce and key succeeds with the
message. -/
def AeadPrim.Inverts (P : AeadPrim) : Prop :=
  ∀ m ad npub k : Bytes, (P.encrypt m ad npub k).1 = 0 →
    (P.encrypt m ad npub k).2.length = m.length + P.ABYTES ∧
    P.decrypt_detached ((P.encrypt m ad npub k).2.take m.length)
      ((P.encrypt m ad npub k).2.drop m.length) ad npub k = (0, m)

/-- The verify primitive accepts the `BYTES`-long tag the compute primitive
produces for the same message and key. -/
def AuthPrim.Sound (P : AuthPrim) : Prop :=
  ∀ msg k : Bytes, (P.auth msg k).1 = 0 →
    (P.auth msg k).2.length = P.BYTES ∧ P.verify (P.auth msg k).2 msg k = 0

/-- The primitive `sodium_init` reports 1 when the library was initialised by an earlier
successful call. -/
def InitReportsAlready (S : Sodium σ) : Prop :=
  ∀ s : σ, (S.sodium_init s).1 = 0 → (S.sodium_init (S.sodium_init s).2).1 = 1

/-! ## A small executable libsodium stand-in, for concrete runs -/

def zeros (n : Nat) : Bytes := List.replicate n 0

/-- Sizes as in libsodium; the "cipher" is the identity with an all-zero tag. -/
def refAead (npubbytes : Nat) : AeadPrim :=
  { KEYBYTES := 32
    NSECBYTES := 0
    NPUBBYTES := npubbytes
    ABYTES := 16
    encrypt := fun m _ _ _ => (0, m ++ zeros 16)
    decrypt_detached := fun c mac _ _ _ => if mac = zeros 16 then (0, c) else (-1, []) }

def refAuth (bytes : Nat) : AuthPrim :=
  { BYTES := bytes
    KEYBYTES := 32
    auth := fun _ _ => (0, zeros bytes)
    verify := fun h _ _ => if h = zeros bytes then 0 else -1 }

def refCore : CorePrim :=
  { INPUTBYTES := 16
    KEYBYTES := 32
    CONSTBYTES := 16
    OUTPUTBYTES := 32
    core := fun _ _ _ => (0, zeros 32) }

/-- The library state is the "already initialised" flag. -/
def refSodium : Sodium Bool :=
  { sodium_init := fun initialised => (if initialised then 1 else 0, true)
    sodium_memcmp := fun b1 b2 len => if b1.take len = b2.take len then 0 else -1
    crypto_aead_aes256gcm_is_available := 1
    aead := fun f =>
      match f with
      | Aead.aes256gcm => refAead 12
      | Aead.chacha20poly1305 => refAead 8
      | Aead.xchacha20poly1305_ietf => refAead 24
    auth := fun h =>
      match h with
      | Hmac.hmacsha256 => refAuth 32
      | Hmac.hmacsha512 => refAuth 64
      | Hmac.hmacsha512256 => refAuth 32
    core := fun _ => refCore }

/-- A runtime in which every allocation succeeds. -/
def refErts : Erts := { enif_alloc_binary := fun _ => true, uninit := fun _ => 0 }

/-- A runtime that is out of memory. -/
def oomErts : Erts := { enif_alloc_binary := fun _ => false, uninit := fun _ => 0 }

/-- The bytes of `"hello"`. -/
def hello : Bytes := [104, 101, 108, 108, 111]

end Functions

/-! ## Lemmas on the monad and the macros -/

section Lemmas

variable {σ : Type}

instance : LawfulMonad NifM := LawfulMonad.mk' NifM
  (by
    intro α x
    show NifM.bind x _ = x
    rcases x with ⟨t, r⟩
    cases r <;> simp [NifM.bind, pure])
  (by
    intro α β a f
    show NifM.bind _ _ = _
    simp [NifM.bind, pure])
  (by
    intro α β γ x f g
    show NifM.bind (NifM.bind x f) g = NifM.bind x (fun a => NifM.bind (f a) g)
    rcases x with ⟨t, r⟩
    cases r with
    | error e => simp [NifM.bind]
    | ok a =>
      simp only [NifM.bind]
      rcases f a with ⟨t1, r1⟩
      cases r1 <;> simp)

theorem bind_ret {α β : Type} (r : Ret) (f : α → NifM β) : (ret r >>= f) = ret r := rfl

theorem value_ret (r : Ret) : (ret r : NifM Ret).value = r := rfl

theorem trace_ret {α : Type} (r : Ret) : (ret r : NifM α).trace = [] := rfl

theorem value_bind_emit (e : Event) (f : Unit → NifM Ret) :
    (emit e >>= f).value = (f ()).value := rfl

theorem trace_bind_emit {β : Type} (e : Event) (f : Unit → NifM β) :
    (emit e >>= f).trace = e :: (f ()).trace := rfl

theorem bind_ite {α β : Type} (c : Prop) [Decidable c] (a b : NifM α) (f : α → NifM β) :
    ((if c then a else b) >>= f) = if c then a >>= f else b >>= f := by
  split <;> rfl

theorem SALTY_INPUT_BIN_eq (argv : List Term) (i len : Nat) :
    SALTY_INPUT_BIN argv i len =
      match input_bin argv i len with
      | some d => pure d
      | none => ret Ret.badarg := by
  unfold SALTY_INPUT_BIN input_bin asBytes
  cases h : argv[i]? with
  | none => simp [SALTY_BADARG]
  | some t =>
    simp only
    cases h1 : enif_inspect_binary t with
    | some d => simp only [pure_bind]; split <;> simp [SALTY_BADARG]
    | none =>
      simp only
      cases h2 : enif_inspect_iolist_as_binary t with
      | none => simp [SALTY_BADARG, bind_ret]
      | some d => simp only [pure_bind]; split <;> simp [SALTY_BADARG]

theorem bind_input {β : Type} (o : Option Bytes) (f : Bytes → NifM β) :
    ((match o with
      | some d => pure d
      | none => ret Ret.badarg) >>= f) =
    match o with
    | some d => f d
    | none => ret Ret.badarg := by
  cases o <;> simp [bind_ret]

theorem input_bin_eq_none_iff (argv : List Term) (i len : Nat) :
    input_bin argv i len = none ↔
      ∀ t bs, argv[i]? = some t → asBytes t = some bs → bs.length < len := by
  unfold input_bin
  cases h : argv[i]? with
  | none => simp
  | some t =>
    cases h1 : asBytes t with
    | none =>
      simp only [h1, true_iff]
      intro t1 bs ht hbs
      cases ht
      rw [h1] at hbs
      cases hbs
    | some d =>
      simp only [h1]
      constructor
      · intro hd t1 bs ht hbs
        cases ht
        rw [h1] at hbs
        cases hbs
        by_contra hlt
        simp [hlt] at hd
      · intro hall
        have hd : d.length < len := hall t d rfl h1
        simp [hd]

theorem input_bin_set_ne (argv : List Term) (i j len : Nat) (t : Term) (hij : j ≠ i) :
    input_bin (argv.set j t) i len = input_bin argv i len := by
  unfold input_bin
  rw [List.getElem?_set_ne hij]

/-- An argument that `SALTY_INPUT_BIN` refuses ends the call at once: bad
argument, no effect. -/
theorem run_of_input_none (S : Sodium σ) (R : Erts) (s : σ) (op : Op) (argv : List Term)
    (p : Param) (hp : p ∈ params S op) (hnone : input_bin argv p.index p.len = none) :
    run S R s op argv = ⟨Ret.badarg, []⟩ := by
  cases op <;>
  simp only [params, List.mem_cons, List.mem_singleton, List.not_mem_nil, or_false] at hp <;>
  simp only [run, salty_memcmp, salty_aead_encrypt, salty_aead_decrypt_detached, salty_auth,
    salty_auth_verify, salty_core, SALTY_FUNC, SALTY_INPUT_BIN_eq, SALTY_BIN_NO_SIZE,
    bind_input, bind_assoc, pure_bind, bind_ret] <;>
  (repeat' split) <;>
  simp_all [value_ret, trace_ret, SALTY_BADARG, SALTY_BIN_NO_SIZE] <;>
  (rcases hp with hp | hp | hp | hp | hp <;> simp_all)

/-- With the arity right, a call is refused before any effect exactly when
some `SALTY_INPUT_BIN` line refuses its argument. -/
theorem run_rejected_iff (S : Sodium σ) (R : Erts) (s : σ) (op : Op) (argv : List Term)
    (harity : argv.length = op.arity) :
    ((run S R s op argv).ret = Ret.badarg ∧ (run S R s op argv).trace = []) ↔
      ∃ p ∈ params S op, input_bin argv p.index p.len = none := by
  cases op <;>
  simp only [Op.arity] at harity <;>
  simp only [run, params, salty_init, salty_memcmp, salty_aead_KEYBYTES, salty_aead_NSECBYTES,
    salty_aead_NPUBBYTES, salty_aead_ABYTES, salty_aead_aes256gcm_is_available,
    salty_aead_encrypt, salty_aead_decrypt_detached, salty_auth_BYTES, salty_auth_KEYBYTES,
    salty_auth, salty_auth_verify, salty_core, SALTY_CONST_INT64, SALTY_FUNC,
    SALTY_INPUT_BIN_eq, SALTY_BIN_NO_SIZE, bind_input, SALTY_OUTPUT_BIN, SALTY_CALL,
    SALTY_CALL_WITHERR, SALTY_CALL_SIMPLE, SALTY_CALL_SIMPLE_WITHERR, END_OK, END_OK_WITH,
    bind_ite, bind_assoc, pure_bind, bind_ret, harity] <;>
  (repeat' split) <;>
  simp_all [value_ret, trace_ret, value_bind_emit, trace_bind_emit, SALTY_BADARG,
    SALTY_BADALLOC, SALTY_ERROR, SALTY_ERROR_PAIR, SALTY_OK, SALTY_OK_PAIR]

/-- Replacing the `nsec` argument changes nothing. -/
theorem run_set_nsec (S : Sodium σ) (R : Erts) (s : σ) (op : Op) (argv : List Term)
    (j : Nat) (t : Term) (hj : nsec_index op = some j) :
    run S R s op (argv.set j t) = run S R s op argv := by
  cases op <;> simp only [nsec_index, Option.some.injEq, reduceCtorEq] at hj <;> subst hj <;>
  simp only [run, salty_aead_encrypt, salty_aead_decrypt_detached, SALTY_INPUT_BIN_eq,
    List.length_set] <;>
  simp only [input_bin_set_ne, ne_eq, OfNat.ofNat_ne_zero, not_false_eq_true,
    OfNat.zero_ne_ofNat, OfNat.ofNat_ne_one, OfNat.one_ne_ofNat, Nat.reduceEqDiff,
    zero_ne_one, one_ne_zero, SALTY_FUNC, List.length_set]

theorem asBytes_eq_none_iff (t : Term) :
    asBytes t = none ↔
      enif_inspect_binary t = none ∧ enif_inspect_iolist_as_binary t = none := by
  unfold asBytes
  cases h : enif_inspect_binary t <;> simp

/-- Every argument position is read by a `SALTY_INPUT_BIN` line, the `nsec`
position excepted. -/
theorem position_read_or_nsec (S : Sodium σ) (op : Op) (i : Nat) (hi : i < op.arity) :
    nsec_index op = some i ∨ ∃ p ∈ params S op, p.index = i := by
  cases op <;> simp only [Op.arity] at hi <;>
  simp only [nsec_index, params, List.mem_cons, List.mem_singleton, exists_eq_or_imp,
    exists_eq_left, List.not_mem_nil, false_and, exists_false, or_false, reduceCtorEq,
    Option.some.injEq] <;>
  omega

theorem input_bin_eq_some (argv : List Term) (i len : Nat) (d : Bytes)
    (h : input_bin argv i len = some d) :
    ∃ t, argv[i]? = some t ∧ asBytes t = some d ∧ len ≤ d.length := by
  unfold input_bin at h
  cases ht : argv[i]? with
  | none => simp [ht] at h
  | some t =>
    cases hb : asBytes t with
    | none => simp [ht, hb] at h
    | some d1 =>
      simp only [ht, hb] at h
      by_cases hlt : d1.length < len
      · simp [hlt] at h
      · simp only [hlt, if_false, Option.some.injEq] at h
        subst h
        exact ⟨t, rfl, hb, Nat.le_of_not_lt hlt⟩

theorem input_bin_of_bytes (argv : List Term) (i len : Nat) (t : Term) (d : Bytes)
    (ht : argv[i]? = some t) (hb : asBytes t = some d) (hlen : len ≤ d.length) :
    input_bin argv i len = some d := by
  unfold input_bin
  simp only [ht, hb]
  simp [Nat.not_lt.mpr hlen]

theorem length_fresh (R : Erts) (n : Nat) : (R.fresh n).length = n := by
  simp [Erts.fresh]

theorem length_writeBuf (buf out : Bytes) : (writeBuf buf out).length = buf.length := by
  unfold writeBuf
  rw [List.length_take, List.length_append, List.length_drop]
  omega

theorem writeBuf_eq_self (buf out : Bytes) (h : out.length = buf.length) :
    writeBuf buf out = out := by
  unfold writeBuf
  rw [h, List.drop_length, List.append_nil, ← h, List.take_length]

theorem salty_aead_encrypt_ok_inv (S : Sodium σ) (R : Erts) (f : Aead) (argv : List Term)
    (out : Bytes)
    (h : (salty_aead_encrypt S R f argv).ret = SALTY_OK_PAIR (enif_make_binary out)) :
    ∃ plain ad npub key,
      input_bin argv 0 0 = some plain ∧ input_bin argv 1 0 = some ad ∧
      input_bin argv 3 (S.aead f).NPUBBYTES = some npub ∧
      input_bin argv 4 (S.aead f).KEYBYTES = some key ∧
      ((S.aead f).encrypt plain ad (npub.take (S.aead f).NPUBBYTES)
        (key.take (S.aead f).KEYBYTES)).1 = 0 ∧
      out = writeBuf (R.fresh ((S.aead f).ABYTES + plain.length))
        ((S.aead f).encrypt plain ad (npub.take (S.aead f).NPUBBYTES)
          (key.take (S.aead f).KEYBYTES)).2 := by
  revert h
  simp only [salty_aead_encrypt, SALTY_FUNC, SALTY_INPUT_BIN_eq, SALTY_BIN_NO_SIZE,
    bind_input, SALTY_OUTPUT_BIN, SALTY_CALL, END_OK_WITH, bind_ite, bind_assoc, pure_bind,
    bind_ret]
  repeat' split
  all_goals
    simp_all [value_ret, value_bind_emit, SALTY_BADARG, SALTY_BADALLOC, SALTY_ERROR,
      SALTY_OK_PAIR, SALTY_NOERR, tuple_error_unknown, atom_ok, atom_error, salty_onload,
      enif_make_tuple2, enif_make_atom, enif_make_binary]

theorem salty_aead_decrypt_detached_ok_inv (S : Sodium σ) (R : Erts) (f : Aead)
    (argv : List Term) (out : Bytes)
    (h : (salty_aead_decrypt_detached S R f argv).ret = SALTY_OK_PAIR (enif_make_binary out)) :
    ∃ cipher, input_bin argv 1 0 = some cipher ∧ out.length = cipher.length := by
  revert h
  simp only [salty_aead_decrypt_detached, SALTY_FUNC, SALTY_INPUT_BIN_eq, SALTY_BIN_NO_SIZE,
    bind_input, SALTY_OUTPUT_BIN, SALTY_CALL_WITHERR, END_OK_WITH, bind_ite, bind_assoc,
    pure_bind, bind_ret]
  repeat' split
  all_goals
    simp_all [value_ret, value_bind_emit, SALTY_BADARG, SALTY_BADALLOC, SALTY_ERROR_PAIR,
      SALTY_OK_PAIR, SALTY_NOERR, atom_ok, atom_error, salty_onload,
      enif_make_tuple2, enif_make_atom, enif_make_binary]
  intro h
  rw [← h, length_writeBuf, length_fresh]

theorem salty_aead_decrypt_detached_eval (S : Sodium σ) (R : Erts) (f : Aead)
    (argv : List Term) (cipher mac ad npub key : Bytes) (hlen : argv.length = 6)
    (h1 : input_bin argv 1 0 = some cipher) (h2 : input_bin argv 2 (S.aead f).ABYTES = some mac)
    (h3 : input_bin argv 3 0 = some ad) (h4 : input_bin argv 4 (S.aead f).NPUBBYTES = some npub)
    (h5 : input_bin argv 5 (S.aead f).KEYBYTES = some key)
    (hrc : ((S.aead f).decrypt_detached cipher (mac.take (S.aead f).ABYTES) ad
      (npub.take (S.aead f).NPUBBYTES) (key.take (S.aead f).KEYBYTES)).1 = 0) :
    salty_aead_decrypt_detached S R f argv =
      if R.enif_alloc_binary cipher.length = true then
        ⟨SALTY_OK_PAIR (enif_make_binary (writeBuf (R.fresh cipher.length)
            ((S.aead f).decrypt_detached cipher (mac.take (S.aead f).ABYTES) ad
              (npub.take (S.aead f).NPUBBYTES) (key.take (S.aead f).KEYBYTES)).2)),
          [Event.alloc cipher.length, Event.call 0, Event.make_binary]⟩
      else ⟨Ret.badarg, [Event.alloc_failed cipher.length]⟩ := by
  simp only [salty_aead_decrypt_detached, SALTY_FUNC, SALTY_INPUT_BIN_eq, SALTY_BIN_NO_SIZE,
    bind_input, SALTY_OUTPUT_BIN, SALTY_CALL_WITHERR, END_OK_WITH, bind_ite, bind_assoc,
    pure_bind, bind_ret, h1, h2, h3, h4, h5, hlen, hrc]
  repeat' split
  all_goals
    simp_all [value_ret, trace_ret, value_bind_emit, trace_bind_emit, SALTY_BADALLOC,
      SALTY_BADARG, SALTY_NOERR]

theorem salty_auth_ok_inv (S : Sodium σ) (R : Erts) (h : Hmac) (argv : List Term) (out : Bytes)
    (hret : (salty_auth S R h argv).ret = SALTY_OK_PAIR (enif_make_binary out)) :
    ∃ msg key,
      argv.length = 2 ∧
      input_bin argv 0 0 = some msg ∧ input_bin argv 1 (S.auth h).KEYBYTES = some key ∧
      ((S.auth h).auth msg (key.take (S.auth h).KEYBYTES)).1 = 0 ∧
      out = writeBuf (R.fresh (S.auth h).BYTES)
        ((S.auth h).auth msg (key.take (S.auth h).KEYBYTES)).2 := by
  revert hret
  simp only [salty_auth, SALTY_FUNC, SALTY_INPUT_BIN_eq, SALTY_BIN_NO_SIZE,
    bind_input, SALTY_OUTPUT_BIN, SALTY_CALL, END_OK_WITH, bind_ite, bind_assoc, pure_bind,
    bind_ret]
  repeat' split
  all_goals
    simp_all [value_ret, value_bind_emit, SALTY_BADARG, SALTY_BADALLOC, SALTY_ERROR,
      SALTY_OK_PAIR, SALTY_NOERR, tuple_error_unknown, atom_ok, atom_error, salty_onload,
      enif_make_tuple2, enif_make_atom, enif_make_binary]

theorem salty_auth_verify_eval (S : Sodium σ) (h : Hmac) (argv : List Term)
    (mac msg key : Bytes) (hlen : argv.length = 3)
    (h0 : input_bin argv 0 (S.auth h).BYTES = some mac) (h1 : input_bin argv 1 0 = some msg)
    (h2 : input_bin argv 2 (S.auth h).KEYBYTES = some key) :
    salty_auth_verify S h argv =
      if (S.auth h).verify (mac.take (S.auth h).BYTES) msg (key.take (S.auth h).KEYBYTES) ≠ 0
      then
        ⟨SALTY_ERROR_PAIR atom_error_no_match,
          [Event.call ((S.auth h).verify (mac.take (S.auth h).BYTES) msg
            (key.take (S.auth h).KEYBYTES))]⟩
      else ⟨SALTY_OK, [Event.call 0]⟩ := by
  simp only [salty_auth_verify, SALTY_FUNC, SALTY_INPUT_BIN_eq, SALTY_BIN_NO_SIZE,
    bind_input, SALTY_CALL_SIMPLE_WITHERR, END_OK, bind_ite, bind_assoc,
    pure_bind, bind_ret, h0, h1, h2, hlen, SALTY_NOERR]
  repeat' split
  all_goals simp_all [value_ret, trace_ret, value_bind_emit, trace_bind_emit]

theorem salty_memcmp_eval (S : Sodium σ) (argv : List Term) (a b : Bytes)
    (hlen : argv.length = 2)
    (h0 : input_bin argv 0 0 = some a) (h1 : input_bin argv 1 0 = some b) :
    salty_memcmp S argv =
      if a.length ≠ b.length then ⟨SALTY_ERROR, []⟩
      else if S.sodium_memcmp a b a.length ≠ 0 then
        ⟨SALTY_ERROR, [Event.call (S.sodium_memcmp a b a.length)]⟩
      else ⟨SALTY_OK, [Event.call 0]⟩ := by
  simp only [salty_memcmp, SALTY_FUNC, SALTY_INPUT_BIN_eq, SALTY_BIN_NO_SIZE,
    bind_input, SALTY_CALL_SIMPLE, END_OK, bind_ite, bind_assoc,
    pure_bind, bind_ret, h0, h1, hlen, SALTY_NOERR]
  repeat' split
  all_goals simp_all [value_ret, trace_ret, value_bind_emit, trace_bind_emit]

theorem input_bin_cons_succ (x : Term) (argv : List Term) (i len : Nat) :
    input_bin (x :: argv) (i + 1) len = input_bin argv i len := by
  simp [input_bin]

theorem input_bin_cons_zero (d : Bytes) (argv : List Term) (len : Nat) (h : len ≤ d.length) :
    input_bin (Term.binary d :: argv) 0 len = some d :=
  input_bin_of_bytes _ 0 len (Term.binary d) d (by simp) rfl h

theorem refAead_inverts (n : Nat) : (refAead n).Inverts := by
  intro m ad npub k _
  simp [refAead, zeros]

theorem refSodium_aead_inverts (f : Aead) : (refSodium.aead f).Inverts := by
  cases f <;> exact refAead_inverts _

theorem refAuth_sound (n : Nat) : (refAuth n).Sound := by
  intro msg k _
  simp [refAuth, zeros]

theorem refSodium_auth_sound (h : Hmac) : (refSodium.auth h).Sound := by
  cases h <;> exact refAuth_sound _

theorem refSodium_memcmp_contract : MemcmpContract refSodium := by
  intro a b hlen
  have hb : b.take a.length = b := by rw [hlen, List.take_length]
  simp only [refSodium, List.take_length, hb]
  by_cases hab : a = b <;> simp [hab]

theorem refSodium_init_reports_already : InitReportsAlready refSodium := by
  intro s _
  simp [refSodium]

/-- The arity column of `salty_exports` is `Op.arity`, and every operation is
exported. -/
theorem salty_exports_complete (op : Op) :
    ∃ e ∈ salty_exports, e.2.2 = op ∧ e.2.1 = op.arity := by
  cases op <;> (try rename_i x; cases x) <;> decide

end Lemmas

/-! ## The claims -/

section Claims

variable {σ : Type}

/-- C6: in every exported operation, a key, nonce or tag argument (indeed any
argument with a declared size) that is shorter than its declared length makes
the call return the bad-argument signal with an empty trace: no primitive is
invoked and no output buffer is allocated. -/
theorem short_sized_arg_rejected_before_any_effect (S : Sodium σ) (R : Erts) (s : σ) (op : Op)
    (argv : List Term) (p : Param) (t : Term) (bs : Bytes)
    (hp : p ∈ params S op) (ht : argv[p.index]? = some t) (hbs : asBytes t = some bs)
    (hshort : bs.length < p.len) :
    run S R s op argv = ⟨Ret.badarg, []⟩ := by
  apply run_of_input_none S R s op argv p hp
  rw [input_bin_eq_none_iff]
  intro t1 bs1 ht1 hbs1
  rw [ht] at ht1
  cases ht1
  rw [hbs] at hbs1
  cases hbs1
  exact hshort

/-- C6, a concrete run: `aead_xchacha20poly1305_ietf_encrypt` with a 31-byte
key, and `core_hchacha20` with a 15-byte input. -/
theorem short_sized_arg_rejected_witness :
    run refSodium refErts false (Op.aead_encrypt Aead.xchacha20poly1305_ietf)
        [Term.binary hello, Term.binary [], Term.nil, Term.binary (zeros 24),
          Term.binary (zeros 31)] = ⟨Ret.badarg, []⟩ ∧
    run refSodium refErts false (Op.core Core.hchacha20)
        [Term.binary (zeros 15), Term.binary (zeros 32), Term.binary (zeros 16)] =
      ⟨Ret.badarg, []⟩ :=
  ⟨short_sized_arg_rejected_before_any_effect refSodium refErts false
      (Op.aead_encrypt Aead.xchacha20poly1305_ietf) _ ⟨4, Role.key, 32⟩ (Term.binary (zeros 31))
      (zeros 31) (by decide) (by decide) (by decide) (by decide),
   short_sized_arg_rejected_before_any_effect refSodium refErts false (Op.core Core.hchacha20) _
      ⟨0, Role.core_input, 16⟩ (Term.binary (zeros 15)) (zeros 15) (by decide) (by decide)
      (by decide) (by decide)⟩

/-- C9, counterexample: `aead_aes256gcm_encrypt` called with the atom `nsec`
in the secret-nonce position, which is neither a binary nor an iolist, is not
rejected: the buffer is allocated, the primitive runs and `{ok, Cipher}` comes
back. -/
theorem nsec_position_not_inspected :
    enif_inspect_binary (Term.atom "nsec") = none ∧
    enif_inspect_iolist_as_binary (Term.atom "nsec") = none ∧
    run refSodium refErts false (Op.aead_encrypt Aead.aes256gcm)
        [Term.binary hello, Term.binary [], Term.atom "nsec", Term.binary (zeros 12),
          Term.binary (zeros 32)] =
      ⟨SALTY_OK_PAIR (Term.binary (hello ++ zeros 16)),
        [Event.alloc 21, Event.call 0, Event.make_binary]⟩ := by
  decide

/-- C9 (as amended): in every exported operation, an argument at a position
read by `SALTY_INPUT_BIN` that is neither a binary nor an iolist makes the call
return the bad-argument signal with an empty trace (no primitive invoked);
every argument position is such a position except the secret-nonce one
(argument 2 of the AEAD encrypts, argument 0 of the AEAD decrypt_detacheds),
and what stands at the secret-nonce position has no influence on the call. -/
theorem non_bytes_arg_rejected_except_nsec (S : Sodium σ) (R : Erts) (s : σ) (op : Op)
    (argv : List Term) :
    (∀ p ∈ params S op, ∀ t, argv[p.index]? = some t →
        enif_inspect_binary t = none → enif_inspect_iolist_as_binary t = none →
        run S R s op argv = ⟨Ret.badarg, []⟩) ∧
    (∀ i, i < op.arity → nsec_index op = some i ∨ ∃ p ∈ params S op, p.index = i) ∧
    (∀ j t, nsec_index op = some j → run S R s op (argv.set j t) = run S R s op argv) := by
  refine ⟨?_, position_read_or_nsec S op, ?_⟩
  · intro p hp t ht hbin hio
    apply run_of_input_none S R s op argv p hp
    rw [input_bin_eq_none_iff]
    intro t1 bs1 ht1 hbs1
    rw [ht] at ht1
    cases ht1
    rw [(asBytes_eq_none_iff t).mpr ⟨hbin, hio⟩] at hbs1
    cases hbs1
  · intro j t hj
    exact run_set_nsec S R s op argv j t hj

/-- C9 (as amended), a concrete run: `auth_hmacsha512_verify` with an integer
as message is refused; `aead_chacha20poly1305_decrypt_detached` gives the same
outcome whatever stands at position 0. -/
theorem non_bytes_arg_rejected_witness :
    run refSodium refErts false (Op.auth_verify Hmac.hmacsha512)
        [Term.binary (zeros 64), Term.int 7, Term.binary (zeros 32)] = ⟨Ret.badarg, []⟩ ∧
    run refSodium refErts false (Op.aead_decrypt_detached Aead.chacha20poly1305)
        ([Term.nil, Term.binary hello, Term.binary (zeros 16), Term.binary [],
          Term.binary (zeros 8), Term.binary (zeros 32)].set 0 (Term.atom "x")) =
      run refSodium refErts false (Op.aead_decrypt_detached Aead.chacha20poly1305)
        [Term.nil, Term.binary hello, Term.binary (zeros 16), Term.binary [],
          Term.binary (zeros 8), Term.binary (zeros 32)] :=
  ⟨(non_bytes_arg_rejected_except_nsec refSodium refErts false (Op.auth_verify Hmac.hmacsha512)
      [Term.binary (zeros 64), Term.int 7, Term.binary (zeros 32)]).1
      ⟨1, Role.message, 0⟩ (by decide) (Term.int 7) (by decide) (by decide) (by decide),
   (non_bytes_arg_rejected_except_nsec refSodium refErts false
      (Op.aead_decrypt_detached Aead.chacha20poly1305) _).2.2 0 (Term.atom "x") (by decide)⟩

/-- C5, counterexample: `auth_hmacsha256_verify` called with a 33-byte key,
one byte longer than `KEYBYTES` = 32, is not rejected: the primitive runs and
`ok` comes back. -/
theorem longer_key_not_rejected :
    (zeros 33).length ≠ (refSodium.auth Hmac.hmacsha256).KEYBYTES ∧
    run refSodium refErts false (Op.auth_verify Hmac.hmacsha256)
        [Term.binary (zeros 32), Term.binary hello, Term.binary (zeros 33)] =
      ⟨SALTY_OK, [Event.call 0]⟩ := by
  decide

/-- C5 (as amended): the size check is a lower bound.  A call of the right
arity is refused by argument validation (bad-argument signal, empty trace)
exactly when some argument read by `SALTY_INPUT_BIN` is not a byte sequence or
is shorter than the declared length of its parameter; so a sized argument of
the declared length or longer passes.  The variable-length parameters are
declared with length 0 and so pass at every length. -/
theorem size_check_is_lower_bound (S : Sodium σ) (R : Erts) (s : σ) (op : Op)
    (argv : List Term) (harity : argv.length = op.arity) :
    (((run S R s op argv).ret = Ret.badarg ∧ (run S R s op argv).trace = []) ↔
      ∃ p ∈ params S op, ∀ t bs, argv[p.index]? = some t → asBytes t = some bs →
        bs.length < p.len) ∧
    (∀ p ∈ params S op, p.role.exact = false → p.len = 0) := by
  constructor
  · rw [run_rejected_iff S R s op argv harity]
    simp only [input_bin_eq_none_iff]
  · intro p hp hrole
    cases op <;>
    simp only [params, List.mem_cons, List.mem_singleton, List.not_mem_nil, or_false] at hp <;>
    (try rcases hp with hp | hp | hp | hp | hp) <;>
    (try subst hp) <;>
    simp_all [Role.exact, SALTY_BIN_NO_SIZE]

/-- C5 (as amended), a concrete run: `auth_hmacsha256_verify` with a tag of
32 bytes, the message `hello` and a key of 33 bytes. -/
theorem size_check_is_lower_bound_witness :
    ([Term.binary (zeros 32), Term.binary hello, Term.binary (zeros 33)] : List Term).length =
      (Op.auth_verify Hmac.hmacsha256).arity ∧
    ((((run refSodium refErts false (Op.auth_verify Hmac.hmacsha256)
          [Term.binary (zeros 32), Term.binary hello, Term.binary (zeros 33)]).ret = Ret.badarg ∧
        (run refSodium refErts false (Op.auth_verify Hmac.hmacsha256)
          [Term.binary (zeros 32), Term.binary hello, Term.binary (zeros 33)]).trace = []) ↔
      ∃ p ∈ params refSodium (Op.auth_verify Hmac.hmacsha256), ∀ t bs,
        [Term.binary (zeros 32), Term.binary hello, Term.binary (zeros 33)][p.index]? = some t →
          asBytes t = some bs → bs.length < p.len) ∧
    (∀ p ∈ params refSodium (Op.auth_verify Hmac.hmacsha256), p.role.exact = false → p.len = 0)) :=
  ⟨by decide,
   size_check_is_lower_bound refSodium refErts false (Op.auth_verify Hmac.hmacsha256)
      [Term.binary (zeros 32), Term.binary hello, Term.binary (zeros 33)] (by decide)⟩

/-- C4: in every exported operation that allocates an output buffer, for every
input: if the returned value carries a buffer then the run was exactly
allocate, primitive returning 0, hand over; and if the primitive returned a
nonzero code then the run was exactly allocate, primitive, release (so the
buffer is released exactly once and never handed over) and the returned value
carries no buffer. -/
theorem output_buffer_ownership (S : Sodium σ) (R : Erts) (s : σ) (op : Op)
    (argv : List Term) (hop : op.allocates = true) :
    ((run S R s op argv).ret.carriesBuffer = true →
      ∃ n, (run S R s op argv).trace = [Event.alloc n, Event.call 0, Event.make_binary]) ∧
    (∀ rc, rc ≠ 0 → Event.call rc ∈ (run S R s op argv).trace →
      (∃ n, (run S R s op argv).trace = [Event.alloc n, Event.call rc, Event.release]) ∧
      (run S R s op argv).trace.count Event.release = 1 ∧
      Event.make_binary ∉ (run S R s op argv).trace ∧
      (run S R s op argv).ret.carriesBuffer = false) := by
  cases op <;> simp only [Op.allocates, Bool.false_eq_true] at hop <;>
  simp only [run, salty_aead_encrypt, salty_aead_decrypt_detached, salty_auth, salty_core,
    SALTY_FUNC, SALTY_INPUT_BIN_eq, SALTY_BIN_NO_SIZE, bind_input, SALTY_OUTPUT_BIN,
    SALTY_CALL, SALTY_CALL_WITHERR, END_OK_WITH, bind_ite, bind_assoc, pure_bind, bind_ret] <;>
  (repeat' split) <;>
  simp_all [value_ret, trace_ret, value_bind_emit, trace_bind_emit, SALTY_BADARG,
    SALTY_BADALLOC, SALTY_ERROR, SALTY_ERROR_PAIR, SALTY_OK_PAIR, SALTY_NOERR,
    Ret.carriesBuffer, Term.hasBinary, tuple_error_unknown, atom_error, atom_error_forged,
    atom_ok, salty_onload, enif_make_tuple2, enif_make_atom, enif_make_binary]

/-- C4, a concrete run: `aead_aes256gcm_decrypt_detached` with a tag the
primitive refuses (code -1) releases the buffer once and returns no buffer. -/
theorem output_buffer_ownership_witness :
    (Op.aead_decrypt_detached Aead.aes256gcm).allocates = true ∧
    (run refSodium refErts false (Op.aead_decrypt_detached Aead.aes256gcm)
        [Term.nil, Term.binary hello, Term.binary (List.replicate 16 1), Term.binary [],
          Term.binary (zeros 12), Term.binary (zeros 32)]).trace.count Event.release = 1 ∧
    (run refSodium refErts false (Op.aead_decrypt_detached Aead.aes256gcm)
        [Term.nil, Term.binary hello, Term.binary (List.replicate 16 1), Term.binary [],
          Term.binary (zeros 12), Term.binary (zeros 32)]).ret.carriesBuffer = false :=
  ⟨by decide,
   ((output_buffer_ownership refSodium refErts false (Op.aead_decrypt_detached Aead.aes256gcm)
      [Term.nil, Term.binary hello, Term.binary (List.replicate 16 1), Term.binary [],
        Term.binary (zeros 12), Term.binary (zeros 32)] (by decide)).2 (-1) (by decide)
      (by decide)).2.1,
   ((output_buffer_ownership refSodium refErts false (Op.aead_decrypt_detached Aead.aes256gcm)
      [Term.nil, Term.binary hello, Term.binary (List.replicate 16 1), Term.binary [],
        Term.binary (zeros 12), Term.binary (zeros 32)] (by decide)).2 (-1) (by decide)
      (by decide)).2.2.2⟩

/-- C8, counterexample: `aead_aes256gcm_is_available` calls a primitive that
returns an integer, and maps the code 0 to `{error, not_available}` and the
nonzero code 1 to `ok`. -/
theorem is_available_zero_is_failure :
    run { refSodium with crypto_aead_aes256gcm_is_available := 0 } refErts false
        Op.aead_aes256gcm_is_available [] =
      ⟨SALTY_ERROR_PAIR atom_error_not_available, [Event.call 0]⟩ ∧
    run refSodium refErts false Op.aead_aes256gcm_is_available [] =
      ⟨SALTY_OK, [Event.call 1]⟩ := by
  decide

/-- C8 (as amended): whenever an exported operation has invoked its wrapped
primitive and got the code `rc`: for every operation other than
`aead_aes256gcm_is_available` the result is a success value (`ok` or
`{ok, Buffer}`) if and only if `rc` is zero, and for nonzero `rc` it is
`{error, forged}` for the AEAD decrypt_detacheds, `{error, no_match}` for the
MAC verifies and `{error, salty_error_unknown}` for all the others; for
`aead_aes256gcm_is_available` the result is `ok` if and only if `rc` is
nonzero, and `{error, not_available}` when `rc` is zero.  A call invokes its
primitive at most once, so `rc` is the code of the call. -/
theorem return_code_classification (S : Sodium σ) (R : Erts) (s : σ) (op : Op)
    (argv : List Term) (rc : Int) (hcall : Event.call rc ∈ (run S R s op argv).trace) :
    (op ≠ Op.aead_aes256gcm_is_available →
      ((run S R s op argv).ret.isSuccess ↔ rc = 0) ∧
      (rc ≠ 0 → (run S R s op argv).ret = failureOf op)) ∧
    (op = Op.aead_aes256gcm_is_available →
      ((run S R s op argv).ret = SALTY_OK ↔ rc ≠ 0) ∧
      (rc = 0 → (run S R s op argv).ret = SALTY_ERROR_PAIR atom_error_not_available)) ∧
    (∀ rc2, Event.call rc2 ∈ (run S R s op argv).trace → rc2 = rc) := by
  revert hcall
  cases op <;>
  simp only [run, salty_init, salty_memcmp, salty_aead_KEYBYTES, salty_aead_NSECBYTES,
    salty_aead_NPUBBYTES, salty_aead_ABYTES, salty_aead_aes256gcm_is_available,
    salty_aead_encrypt, salty_aead_decrypt_detached, salty_auth_BYTES, salty_auth_KEYBYTES,
    salty_auth, salty_auth_verify, salty_core, SALTY_CONST_INT64, SALTY_FUNC,
    SALTY_INPUT_BIN_eq, SALTY_BIN_NO_SIZE, bind_input, SALTY_OUTPUT_BIN, SALTY_CALL,
    SALTY_CALL_WITHERR, SALTY_CALL_SIMPLE, SALTY_CALL_SIMPLE_WITHERR, END_OK, END_OK_WITH,
    bind_ite, bind_assoc, pure_bind, bind_ret] <;>
  (repeat' split) <;>
  simp_all [value_ret, trace_ret, value_bind_emit, trace_bind_emit, SALTY_BADARG,
    SALTY_BADALLOC, SALTY_ERROR, SALTY_ERROR_PAIR, SALTY_OK, SALTY_OK_PAIR, SALTY_NOERR,
    Ret.isSuccess, failureOf, tuple_error_unknown, atom_error, atom_error_forged,
    atom_error_no_match, atom_error_not_available, atom_error_unknown,
    atom_ok, salty_onload, enif_make_tuple2, enif_make_atom, enif_make_binary]

/-- C8 (as amended), a concrete run: `auth_hmacsha512256_verify` on a tag the
primitive refuses with code -1 returns `{error, no_match}`. -/
theorem return_code_classification_witness :
    Event.call (-1) ∈ (run refSodium refErts false (Op.auth_verify Hmac.hmacsha512256)
        [Term.binary (List.replicate 32 9), Term.binary hello, Term.binary (zeros 32)]).trace ∧
    (run refSodium refErts false (Op.auth_verify Hmac.hmacsha512256)
        [Term.binary (List.replicate 32 9), Term.binary hello, Term.binary (zeros 32)]).ret =
      SALTY_ERROR_PAIR atom_error_no_match :=
  ⟨by decide,
   ((return_code_classification refSodium refErts false (Op.auth_verify Hmac.hmacsha512256)
      [Term.binary (List.replicate 32 9), Term.binary hello, Term.binary (zeros 32)] (-1)
      (by decide)).1 (by decide)).2 (by decide)⟩

/-- C7: for each AEAD family and every argument list, when encrypt returns
`{ok, C}` the length of `C` is the plaintext length plus `ABYTES` (so
5 + `ABYTES` for the plaintext `hello`), and when decrypt_detached returns
`{ok, P}` the length of `P` is the length of the ciphertext argument. -/
theorem aead_output_length (S : Sodium σ) (R : Erts) (f : Aead) (argv : List Term)
    (out : Bytes) :
    ((salty_aead_encrypt S R f argv).ret = SALTY_OK_PAIR (enif_make_binary out) →
      ∃ t plain, argv[0]? = some t ∧ asBytes t = some plain ∧
        out.length = plain.length + (S.aead f).ABYTES) ∧
    ((salty_aead_encrypt S R f argv).ret = SALTY_OK_PAIR (enif_make_binary out) →
      argv[0]? = some (Term.binary hello) → out.length = 5 + (S.aead f).ABYTES) ∧
    ((salty_aead_decrypt_detached S R f argv).ret = SALTY_OK_PAIR (enif_make_binary out) →
      ∃ t cipher, argv[1]? = some t ∧ asBytes t = some cipher ∧
        out.length = cipher.length) := by
  have henc : (salty_aead_encrypt S R f argv).ret = SALTY_OK_PAIR (enif_make_binary out) →
      ∃ t plain, argv[0]? = some t ∧ asBytes t = some plain ∧
        out.length = plain.length + (S.aead f).ABYTES := by
    intro h
    obtain ⟨plain, ad, npub, key, h0, _, _, _, _, hout⟩ := salty_aead_encrypt_ok_inv S R f argv out h
    obtain ⟨t, ht, hb, _⟩ := input_bin_eq_some argv 0 0 plain h0
    refine ⟨t, plain, ht, hb, ?_⟩
    rw [hout, length_writeBuf, length_fresh, Nat.add_comm]
  refine ⟨henc, ?_, ?_⟩
  · intro h hhello
    obtain ⟨t, plain, ht, hb, hlen⟩ := henc h
    rw [hhello] at ht
    cases ht
    cases hb
    rw [hlen]
    rfl
  · intro h
    obtain ⟨cipher, h1, hlen⟩ := salty_aead_decrypt_detached_ok_inv S R f argv out h
    obtain ⟨t, ht, hb, _⟩ := input_bin_eq_some argv 1 0 cipher h1
    exact ⟨t, cipher, ht, hb, hlen⟩

/-- C7, a concrete run: encrypting `hello` with xchacha20poly1305_ietf gives
21 = 5 + 16 bytes. -/
theorem aead_output_length_witness :
    (salty_aead_xchacha20poly1305_ietf_encrypt refSodium refErts
        [Term.binary hello, Term.binary [], Term.nil, Term.binary (zeros 24),
          Term.binary (zeros 32)]).ret = SALTY_OK_PAIR (enif_make_binary (hello ++ zeros 16)) ∧
    (hello ++ zeros 16).length = 5 + (refSodium.aead Aead.xchacha20poly1305_ietf).ABYTES :=
  ⟨by decide,
   (aead_output_length refSodium refErts Aead.xchacha20poly1305_ietf
      [Term.binary hello, Term.binary [], Term.nil, Term.binary (zeros 24),
        Term.binary (zeros 32)] (hello ++ zeros 16)).2.1 (by decide) (by decide)⟩

/-- C1, counterexample: with an inverting primitive, a 8-byte nonce and a
32-byte key, chacha20poly1305 encrypt of `hello` returns `{ok, C}`, and
decrypt_detached on the two parts of `C`, run when the runtime cannot allocate,
returns the bad-argument signal and not `{ok, hello}`. -/
theorem decrypt_after_encrypt_out_of_memory :
    (refSodium.aead Aead.chacha20poly1305).Inverts ∧
    (salty_aead_chacha20poly1305_encrypt refSodium refErts
        [Term.binary hello, Term.binary [], Term.nil, Term.binary (zeros 8),
          Term.binary (zeros 32)]).ret = SALTY_OK_PAIR (enif_make_binary (hello ++ zeros 16)) ∧
    salty_aead_chacha20poly1305_decrypt_detached refSodium oomErts
        [Term.nil, Term.binary ((hello ++ zeros 16).take 5),
          Term.binary ((hello ++ zeros 16).drop 5), Term.binary [], Term.binary (zeros 8),
          Term.binary (zeros 32)] = ⟨Ret.badarg, [Event.alloc_failed 5]⟩ :=
  ⟨refSodium_aead_inverts Aead.chacha20poly1305, by decide, by decide⟩

/-- C1 (as amended): for each AEAD family, every plaintext, associated data,
nonce of `NPUBBYTES` bytes and key of `KEYBYTES` bytes, whatever stands in the
secret-nonce positions, and a primitive whose detached decrypt inverts its
combined encrypt: if encrypt returns `{ok, C}` then the first `|plain|` bytes
of `C` are the ciphertext part, the remaining bytes are `ABYTES` long, and
decrypt_detached on those two parts with the same data, nonce and key returns
`{ok, plain}` when its output buffer can be allocated, and the bad-argument
signal when it cannot. -/
theorem aead_roundtrip_when_allocated (S : Sodium σ) (R R' : Erts) (f : Aead)
    (plain ad npub key C : Bytes) (nsec nsec' : Term)
    (hinv : (S.aead f).Inverts)
    (hnpub : npub.length = (S.aead f).NPUBBYTES) (hkey : key.length = (S.aead f).KEYBYTES)
    (henc : (salty_aead_encrypt S R f
      [Term.binary plain, Term.binary ad, nsec, Term.binary npub, Term.binary key]).ret =
        SALTY_OK_PAIR (enif_make_binary C)) :
    (C.take plain.length).length = plain.length ∧
    (C.drop plain.length).length = (S.aead f).ABYTES ∧
    salty_aead_decrypt_detached S R' f
      [nsec', Term.binary (C.take plain.length), Term.binary (C.drop plain.length),
        Term.binary ad, Term.binary npub, Term.binary key] =
      if R'.enif_alloc_binary plain.length = true then
        ⟨SALTY_OK_PAIR (enif_make_binary plain),
          [Event.alloc plain.length, Event.call 0, Event.make_binary]⟩
      else ⟨Ret.badarg, [Event.alloc_failed plain.length]⟩ := by
  obtain ⟨plain1, ad1, npub1, key1, h0, h1, h3, h4, hrc, hout⟩ :=
    salty_aead_encrypt_ok_inv S R f _ C henc
  rw [input_bin_cons_zero plain _ 0 (Nat.zero_le _)] at h0
  rw [input_bin_cons_succ, input_bin_cons_zero ad _ 0 (Nat.zero_le _)] at h1
  rw [show (3 : Nat) = 0 + 1 + 1 + 1 from rfl, input_bin_cons_succ, input_bin_cons_succ,
    input_bin_cons_succ, input_bin_cons_zero npub _ _ (Nat.le_of_eq hnpub.symm)] at h3
  rw [show (4 : Nat) = 0 + 1 + 1 + 1 + 1 from rfl, input_bin_cons_succ, input_bin_cons_succ,
    input_bin_cons_succ, input_bin_cons_succ,
    input_bin_cons_zero key _ _ (Nat.le_of_eq hkey.symm)] at h4
  cases h0
  cases h1
  cases h3
  cases h4
  have htn : npub.take (S.aead f).NPUBBYTES = npub := by rw [← hnpub, List.take_length]
  have htk : key.take (S.aead f).KEYBYTES = key := by rw [← hkey, List.take_length]
  rw [htn, htk] at hrc hout
  obtain ⟨hclen, hdec⟩ := hinv plain ad npub key hrc
  have hC : C = ((S.aead f).encrypt plain ad npub key).2 := by
    rw [hout]
    apply writeBuf_eq_self
    rw [length_fresh, hclen, Nat.add_comm]
  have hCl : C.length = plain.length + (S.aead f).ABYTES := by rw [hC, hclen]
  have htake : (C.take plain.length).length = plain.length := by
    rw [List.length_take, hCl]
    omega
  have hdrop : (C.drop plain.length).length = (S.aead f).ABYTES := by
    rw [List.length_drop, hCl]
    omega
  refine ⟨htake, hdrop, ?_⟩
  have hmac : (C.drop plain.length).take (S.aead f).ABYTES = C.drop plain.length := by
    rw [← hdrop, List.take_length]
  have hd : (S.aead f).decrypt_detached (C.take plain.length)
      ((C.drop plain.length).take (S.aead f).ABYTES) ad (npub.take (S.aead f).NPUBBYTES)
      (key.take (S.aead f).KEYBYTES) = (0, plain) := by
    rw [hmac, htn, htk, hC]
    exact hdec
  rw [salty_aead_decrypt_detached_eval S R' f _ (C.take plain.length) (C.drop plain.length) ad
    npub key (by simp)
    (by rw [input_bin_cons_succ]; exact input_bin_cons_zero _ _ 0 (Nat.zero_le _))
    (by
      rw [show (2 : Nat) = 0 + 1 + 1 from rfl, input_bin_cons_succ, input_bin_cons_succ]
      exact input_bin_cons_zero _ _ _ (Nat.le_of_eq hdrop.symm))
    (by
      rw [show (3 : Nat) = 0 + 1 + 1 + 1 from rfl, input_bin_cons_succ, input_bin_cons_succ,
        input_bin_cons_succ]
      exact input_bin_cons_zero _ _ 0 (Nat.zero_le _))
    (by
      rw [show (4 : Nat) = 0 + 1 + 1 + 1 + 1 from rfl, input_bin_cons_succ,
        input_bin_cons_succ, input_bin_cons_succ, input_bin_cons_succ]
      exact input_bin_cons_zero _ _ _ (Nat.le_of_eq hnpub.symm))
    (by
      rw [show (5 : Nat) = 0 + 1 + 1 + 1 + 1 + 1 from rfl, input_bin_cons_succ,
        input_bin_cons_succ, input_bin_cons_succ, input_bin_cons_succ, input_bin_cons_succ]
      exact input_bin_cons_zero _ _ _ (Nat.le_of_eq hkey.symm))
    (by rw [hd])]
  rw [hd, htake, writeBuf_eq_self _ _ (length_fresh R' plain.length).symm]

/-- C1 (as amended), a concrete run: `hello` through chacha20poly1305 and back. -/
theorem aead_roundtrip_witness :
    salty_aead_decrypt_detached refSodium refErts Aead.chacha20poly1305
      [Term.nil, Term.binary ((hello ++ zeros 16).take hello.length),
        Term.binary ((hello ++ zeros 16).drop hello.length), Term.binary [],
        Term.binary (zeros 8), Term.binary (zeros 32)] =
      if refErts.enif_alloc_binary hello.length = true then
        ⟨SALTY_OK_PAIR (enif_make_binary hello),
          [Event.alloc hello.length, Event.call 0, Event.make_binary]⟩
      else ⟨Ret.badarg, [Event.alloc_failed hello.length]⟩ :=
  (aead_roundtrip_when_allocated refSodium refErts refErts Aead.chacha20poly1305 hello []
    (zeros 8) (zeros 32) (hello ++ zeros 16) Term.nil Term.nil
    (refSodium_aead_inverts Aead.chacha20poly1305) (by decide) (by decide) (by decide)).2.2

/-- C3: for each MAC family, every message and key, and a verify primitive
that accepts the tag the compute primitive produces: if compute returns
`{ok, T}` then verify on `T` with the same message and key invokes the
primitive once and returns the bare `ok`. -/
theorem mac_verify_accepts_computed_tag (S : Sodium σ) (R : Erts) (h : Hmac) (msg key : Term)
    (T : Bytes) (hsound : (S.auth h).Sound)
    (hcomp : (salty_auth S R h [msg, key]).ret = SALTY_OK_PAIR (enif_make_binary T)) :
    salty_auth_verify S h [Term.binary T, msg, key] = ⟨SALTY_OK, [Event.call 0]⟩ := by
  obtain ⟨m, k, _, h0, h1, hrc, hout⟩ := salty_auth_ok_inv S R h _ T hcomp
  obtain ⟨hlen, hver⟩ := hsound m (k.take (S.auth h).KEYBYTES) hrc
  have hT : T = ((S.auth h).auth m (k.take (S.auth h).KEYBYTES)).2 := by
    rw [hout]
    apply writeBuf_eq_self
    rw [length_fresh, hlen]
  have hTl : T.length = (S.auth h).BYTES := by rw [hT, hlen]
  have hTt : T.take (S.auth h).BYTES = T := by rw [← hTl, List.take_length]
  rw [salty_auth_verify_eval S h _ T m k (by simp)
    (input_bin_cons_zero T _ _ (Nat.le_of_eq hTl.symm))
    (by rw [input_bin_cons_succ]; exact h0)
    (by rw [show (2 : Nat) = 1 + 1 from rfl, input_bin_cons_succ]; exact h1)]
  rw [hTt, hT, hver]
  simp

/-- C3, a concrete run: hmacsha512 over `hello`. -/
theorem mac_verify_accepts_computed_tag_witness :
    (salty_auth_hmacsha512 refSodium refErts [Term.binary hello, Term.binary (zeros 32)]).ret =
      SALTY_OK_PAIR (enif_make_binary (zeros 64)) ∧
    salty_auth_verify refSodium Hmac.hmacsha512
      [Term.binary (zeros 64), Term.binary hello, Term.binary (zeros 32)] =
      ⟨SALTY_OK, [Event.call 0]⟩ :=
  ⟨by decide,
   mac_verify_accepts_computed_tag refSodium refErts Hmac.hmacsha512 (Term.binary hello)
    (Term.binary (zeros 32)) (zeros 64) (refSodium_auth_sound Hmac.hmacsha512) (by decide)⟩

/-- C2: for every two byte buffers, with `sodium_memcmp` returning 0 exactly
on equal regions: memcmp returns `ok` if and only if the buffers have the same
length and the same content, and for any difference in length or content it
returns the error tuple `{error, salty_error_unknown}`. -/
theorem memcmp_ok_iff_equal (S : Sodium σ) (ta tb : Term) (a b : Bytes)
    (hcontract : MemcmpContract S) (ha : asBytes ta = some a) (hb : asBytes tb = some b) :
    ((salty_memcmp S [ta, tb]).ret = SALTY_OK ↔ (a.length = b.length ∧ a = b)) ∧
    ((a.length ≠ b.length ∨ a ≠ b) → (salty_memcmp S [ta, tb]).ret = SALTY_ERROR) := by
  have hne : SALTY_ERROR ≠ SALTY_OK := by decide
  rw [salty_memcmp_eval S [ta, tb] a b rfl
    (input_bin_of_bytes _ 0 0 ta a (by simp) ha (Nat.zero_le _))
    (input_bin_of_bytes _ 1 0 tb b (by simp) hb (Nat.zero_le _))]
  by_cases hlen : a.length = b.length
  · have hc := hcontract a b hlen
    rw [if_neg (not_not.mpr hlen)]
    by_cases hrc : S.sodium_memcmp a b a.length = 0
    · have hab : a = b := hc.mp hrc
      rw [if_neg (not_not.mpr hrc)]
      exact ⟨⟨fun _ => ⟨hlen, hab⟩, fun _ => rfl⟩,
        fun hd => hd.elim (fun hl => absurd hlen hl) (fun hn => absurd hab hn)⟩
    · have hab : a ≠ b := fun e => hrc (hc.mpr e)
      rw [if_pos hrc]
      exact ⟨⟨fun hr => absurd hr hne, fun hr => absurd hr.2 hab⟩, fun _ => rfl⟩
  · rw [if_pos hlen]
    exact ⟨⟨fun hr => absurd hr hne, fun hr => absurd hr.1 hlen⟩, fun _ => rfl⟩

/-- C2, a concrete run: the empty buffer against `hello`. -/
theorem memcmp_ok_iff_equal_witness :
    (salty_memcmp refSodium [Term.binary [], Term.binary hello]).ret = SALTY_ERROR :=
  (memcmp_ok_iff_equal refSodium (Term.binary []) (Term.binary hello) [] hello
    refSodium_memcmp_contract rfl rfl).2 (Or.inl (by decide))

/-- C10: init, called with no arguments, returns `ok` if and only if
`sodium_init` returns 0; every other code, the code 1 included, gives
`{error, salty_error_unknown}`; so, with a library that reports 1 once it has
been initialised, a second init after a successful first one returns that
error. -/
theorem init_ok_iff_zero (S : Sodium σ) (s : σ) :
    ((salty_init S [] s).1.ret = SALTY_OK ↔ (S.sodium_init s).1 = 0) ∧
    ((S.sodium_init s).1 ≠ 0 → (salty_init S [] s).1.ret = SALTY_ERROR) ∧
    ((S.sodium_init s).1 = 1 → (salty_init S [] s).1.ret = SALTY_ERROR) ∧
    (InitReportsAlready S → (salty_init S [] s).1.ret = SALTY_OK →
      (salty_init S [] (salty_init S [] s).2).1.ret = SALTY_ERROR) := by
  have hne : SALTY_ERROR ≠ SALTY_OK := by decide
  have key : ∀ s : σ, (salty_init S [] s).1.ret =
      if (S.sodium_init s).1 ≠ 0 then SALTY_ERROR else SALTY_OK := by
    intro s
    simp only [salty_init, SALTY_FUNC, SALTY_CALL_SIMPLE, END_OK, bind_ite, bind_assoc,
      pure_bind, bind_ret, SALTY_NOERR]
    repeat' split
    all_goals simp_all [value_ret, value_bind_emit]
  have hst : (salty_init S [] s).2 = (S.sodium_init s).2 := by simp [salty_init]
  refine ⟨?_, ?_, ?_, ?_⟩
  · rw [key]
    by_cases h0 : (S.sodium_init s).1 = 0 <;> simp [h0, hne]
  · intro h0
    rw [key]
    simp [h0]
  · intro h1
    rw [key]
    simp [h1]
  · intro halready hok
    rw [key] at hok
    have h0 : (S.sodium_init s).1 = 0 := by
      by_contra hn
      simp [hn, hne] at hok
    rw [key, hst, halready s h0]
    simp

/-- C10, a concrete run: init twice on a fresh library. -/
theorem init_ok_iff_zero_witness :
    (salty_init refSodium [] false).1.ret = SALTY_OK ∧
    (salty_init refSodium [] (salty_init refSodium [] false).2).1.ret = SALTY_ERROR :=
  ⟨by decide,
   (init_ok_iff_zero refSodium false).2.2.2 refSodium_init_reports_already (by decide)⟩

end Claims

end Salty
